import Mathlib

/-!
Verification of the HoldSleuth grid inference / snapping engine and its
projection layer.  Python sources are embedded shallowly over `ℚ`:

* `src/image_detection/SVG_to_image_grid.py` — grid parameter estimation
  (`calculate_grid_parameters`, `infer_grid_from_holds`,
  `generate_tnut_grid`) and hold snapping (`transform_svg_to_grid`);
* `src/pi/keystone_projection.py` — keystone transform (`apply_keystone`)
  and the visibility filter inside `ProjectionDisplay.render`;
* `src/utils/route_manager.py` — `validate_route`.

Floating-point arithmetic is modelled with exact rationals; Python `int()`
truncation and float `%` are modelled explicitly below.
-/

/-- Python `int()` applied to a rational: truncation toward zero.
`Int.tdiv` truncates toward zero and a `Rat`'s denominator is positive. -/
def pyTrunc (q : ℚ) : ℤ :=
  Int.tdiv q.num q.den

/-- Floor of a rational, as used by Python's float `%`. -/
def qfloor (q : ℚ) : ℤ :=
  Int.fdiv q.num q.den

/-- Python float `%` (sign of the divisor): `a % b = a - b * floor (a / b)`. -/
def pyMod (a b : ℚ) : ℚ :=
  a - b * (qfloor (a / b) : ℚ)

/-- Clamp: `max lo (min hi v)`, the `max(lo, min(hi, v))` clamping idiom of the source. -/
def clampI (lo hi v : ℤ) : ℤ :=
  max lo (min hi v)

/-- A 2D point with rational (exact pixel) coordinates. -/
structure Pt where
  x : ℚ
  y : ℚ
deriving DecidableEq

/-- Squared Euclidean distance.  The source computes
`np.sqrt((dx)**2 + (dy)**2)` and only ever compares such distances
(argmin, ascending sort); since `sqrt` is monotone, comparing squared
distances yields the same argmin and the same sort order. -/
def dist2 (p q : Pt) : ℚ :=
  (p.x - q.x) ^ 2 + (p.y - q.y) ^ 2

/-- The `grid_params` dict built by the estimators
(`SVG_to_image_grid.py`). -/
structure GridParams where
  spacing_x : ℚ
  spacing_y : ℚ
  origin_x : ℚ
  origin_y : ℚ
  max_x : ℚ
  max_y : ℚ
deriving DecidableEq

/-- SVG viewBox and resolved width/height attributes, as read by
`get_svg_viewbox` and `transform_svg_to_grid`. -/
structure SvgView where
  view_min_x : ℚ
  view_min_y : ℚ
  view_width : ℚ
  view_height : ℚ
  width : ℚ
  height : ℚ
deriving DecidableEq

/-- Source: `scale_x = width / view_width if view_width else 1` (0 is falsy). -/
def SvgView.scale_x (v : SvgView) : ℚ :=
  if v.view_width = 0 then 1 else v.width / v.view_width

/-- Source: `scale_y = height / view_height if view_height else 1`. -/
def SvgView.scale_y (v : SvgView) : ℚ :=
  if v.view_height = 0 then 1 else v.height / v.view_height

/-- One `<polygon>` element of the input SVG: its parsed `points`, the
optional `data-tnut-x`/`data-tnut-y` metadata, and the optional `fill`.
`pid` stands for the identity of the XML element object. -/
structure Polygon where
  pid : Nat
  points : List Pt
  tnutMeta : Option Pt
  fill : Option String
deriving DecidableEq

/-- Centroid `(sum x / len, sum y / len)` as computed in
`transform_svg_to_grid` (the Python code divides by `len(points)`;
on an empty list Python would raise, here division by zero yields 0 —
polygons always carry at least one point). -/
def centroid (ps : List Pt) : Pt :=
  ⟨(ps.map Pt.x).sum / (ps.length : ℚ), (ps.map Pt.y).sum / (ps.length : ℚ)⟩

/-- First argmin scan: `np.argmin` returns the first index attaining the
minimum, so a later candidate replaces the best only when strictly
smaller. -/
def nearestFrom (p : Pt) (best : Pt) : List Pt → Pt
  | [] => best
  | t :: ts => if dist2 t p < dist2 best p then nearestFrom p t ts else nearestFrom p best ts

/-- Nearest t-nut to `p` among `tnuts` (`np.argmin` over the distance
array).  On an empty array `np.argmin` raises; the model returns a junk
point, matching no claim's scenario. -/
def nearest_tnut_of (tnuts : List Pt) (p : Pt) : Pt :=
  match tnuts with
  | [] => ⟨0, 0⟩
  | t :: ts => nearestFrom p t ts

/-- The per-hold record built by the first pass of
`transform_svg_to_grid` (the `holds.append({...})` dict), together with
the squared distance attached before sorting. -/
structure HoldRec where
  polygon : Polygon
  original_points : List Pt
  tnut_x : ℚ
  tnut_y : ℚ
  grid_x : ℤ
  grid_y : ℤ
  nearest_tnut : Pt
  distance2 : ℚ
deriving DecidableEq

/-- First pass of `transform_svg_to_grid` for one polygon: transform the
points from viewBox to actual coordinates, take the reference point from
`data-tnut-x/y` metadata (transformed likewise) or else the centroid,
find the nearest t-nut, and derive the clamped grid cell with Python
`int()` truncation. -/
def mkHold (v : SvgView) (gp : GridParams) (tnuts : List Pt) (poly : Polygon) : HoldRec :=
  let original_points := poly.points.map fun p =>
    ⟨(p.x - v.view_min_x) * v.scale_x, (p.y - v.view_min_y) * v.scale_y⟩
  let ref : Pt :=
    match poly.tnutMeta with
    | some t => ⟨(t.x - v.view_min_x) * v.scale_x, (t.y - v.view_min_y) * v.scale_y⟩
    | none => centroid original_points
  let nt := nearest_tnut_of tnuts ref
  let gx := clampI 0 7 (pyTrunc ((nt.x - gp.origin_x) / gp.spacing_x))
  let gy := clampI 0 39 (pyTrunc ((nt.y - gp.origin_y) / gp.spacing_y))
  { polygon := poly
    original_points := original_points
    tnut_x := ref.x
    tnut_y := ref.y
    grid_x := gx
    grid_y := gy
    nearest_tnut := nt
    distance2 := dist2 nt ⟨ref.x, ref.y⟩ }

/-- Stable insertion into a distance-sorted list (ties keep the earlier
element first, as with Python's stable `list.sort`). -/
def insertByDist (h : HoldRec) : List HoldRec → List HoldRec
  | [] => [h]
  | h2 :: t => if h.distance2 ≤ h2.distance2 then h :: h2 :: t else h2 :: insertByDist h t

/-- Source: `holds.sort(key=lambda h: h['distance'])`: stable ascending sort by
distance to the nearest t-nut. -/
def sortByDist : List HoldRec → List HoldRec
  | [] => []
  | h :: t => insertByDist h (sortByDist t)

/-- The output record for a retained hold: the polygon identity, its
rewritten `points` (translated then mapped back to viewBox coordinates),
and the metadata attributes set on it (`data-grid-x`, `data-grid-y`,
`data-tnut-x/y`, `data-original-tnut-x/y`). -/
structure AssignedHold where
  polygon : Polygon
  newPoints : List Pt
  grid_x : ℤ
  grid_y : ℤ
  tnut : Pt
  original_ref : Pt
deriving DecidableEq

/-- The grid cell a candidate hold targets. -/
def cellOf (h : HoldRec) : ℤ × ℤ :=
  (h.grid_x, h.grid_y)

/-- The grid cell recorded on a retained hold. -/
def acell (a : AssignedHold) : ℤ × ℤ :=
  (a.grid_x, a.grid_y)

/-- Retaining one hold: translate every contour point by the constant
offset `(nearest_tnut - reference point)` and convert back to viewBox
coordinates (`new / scale + view_min`), recording the grid metadata. -/
def assignHold (v : SvgView) (h : HoldRec) : AssignedHold :=
  let off_x := h.nearest_tnut.x - h.tnut_x
  let off_y := h.nearest_tnut.y - h.tnut_y
  { polygon := h.polygon
    newPoints := h.original_points.map fun p =>
      ⟨(p.x + off_x) / v.scale_x + v.view_min_x, (p.y + off_y) / v.scale_y + v.view_min_y⟩
    grid_x := h.grid_x
    grid_y := h.grid_y
    tnut := h.nearest_tnut
    original_ref := ⟨h.tnut_x, h.tnut_y⟩ }

/-- Second pass of `transform_svg_to_grid`: walk the distance-sorted
holds; skip a hold whose grid position is already occupied, otherwise
record the occupancy and rewrite the hold.  (The source keeps a dict
`(grid_x, grid_y) -> tnut`; only key membership is ever consulted.) -/
def secondPass (v : SvgView) (occ : List (ℤ × ℤ)) : List HoldRec → List AssignedHold
  | [] => []
  | h :: t =>
    if cellOf h ∈ occ then
      secondPass v occ t
    else
      assignHold v h :: secondPass v (cellOf h :: occ) t

/-- Model of `transform_svg_to_grid(svg_root, grid_params, tnuts)`: returns
immediately when `grid_params is None`, otherwise builds the candidate
records, sorts them by distance to their nearest t-nut, and resolves
collisions first-come-first-claimed over the sorted order. -/
def transform_svg_to_grid (v : SvgView) (gp : Option GridParams) (tnuts : List Pt)
    (polys : List Polygon) : List AssignedHold :=
  match gp with
  | none => []
  | some gp => secondPass v [] (sortByDist (polys.map (mkHold v gp tnuts)))

/-! ## Grid parameter estimation (`SVG_to_image_grid.py`) -/

/-- Ascending insertion into a sorted list of rationals. -/
def insertQ (a : ℚ) : List ℚ → List ℚ
  | [] => [a]
  | b :: t => if a ≤ b then a :: b :: t else b :: insertQ a t

/-- Model of `np.sort` on a 1-D array of rationals (ascending). -/
def sortQ : List ℚ → List ℚ
  | [] => []
  | a :: t => insertQ a (sortQ t)

/-- Model of `np.diff`: consecutive differences. -/
def diffsQ : List ℚ → List ℚ
  | [] => []
  | [_] => []
  | a :: b :: t => (b - a) :: diffsQ (b :: t)

/-- Model of `np.median` of a nonempty sample: middle element of the sorted data,
or the mean of the two middle elements for even length.  (On empty input
the source never calls it; the model returns 0 there.) -/
def medianQ (l : List ℚ) : ℚ :=
  let s := sortQ l
  let n := s.length
  if n % 2 = 1 then s.getD (n / 2) 0
  else (s.getD (n / 2 - 1) 0 + s.getD (n / 2) 0) / 2

/-- Model of `np.min` of a list (head-seeded fold; the source only applies it to
collections of at least 4 points). -/
def listMinQ : List ℚ → ℚ
  | [] => 0
  | a :: t => t.foldl min a

/-- Model of `np.max` of a list. -/
def listMaxQ : List ℚ → ℚ
  | [] => 0
  | a :: t => t.foldl max a

/-- Model of `calculate_grid_parameters(tnut_positions)`: `None` for a missing or
too-small sample (`< 4` points); otherwise spacings are medians of the
sorted coordinate differences above the 5-pixel noise floor, failing
with `None` when no difference survives the filter. -/
def calculate_grid_parameters (tnut_positions : Option (List Pt)) : Option GridParams :=
  match tnut_positions with
  | none => none
  | some pts =>
    if pts.length < 4 then none
    else
      let x_coords := pts.map Pt.x
      let y_coords := pts.map Pt.y
      let x_diffs := (diffsQ (sortQ x_coords)).filter fun d => 5 < d
      let y_diffs := (diffsQ (sortQ y_coords)).filter fun d => 5 < d
      if x_diffs.length = 0 ∨ y_diffs.length = 0 then none
      else
        some
          { spacing_x := medianQ x_diffs
            spacing_y := medianQ y_diffs
            origin_x := listMinQ x_coords
            origin_y := listMinQ y_coords
            max_x := listMaxQ x_coords
            max_y := listMaxQ y_coords }

/-- Model of `infer_grid_from_holds(hold_positions)`: `None` below 4 points,
otherwise the bounds-division strategy with a fixed padding of 20
(10 on each side) over the known 8 x 40 grid. -/
def infer_grid_from_holds (hold_positions : List Pt) : Option GridParams :=
  if hold_positions.length < 4 then none
  else
    let min_x := listMinQ (hold_positions.map Pt.x)
    let max_x := listMaxQ (hold_positions.map Pt.x)
    let min_y := listMinQ (hold_positions.map Pt.y)
    let max_y := listMaxQ (hold_positions.map Pt.y)
    let width := max_x - min_x + 20
    let height := max_y - min_y + 20
    some
      { spacing_x := width / 8
        spacing_y := height / 40
        origin_x := min_x - 10
        origin_y := min_y - 10
        max_x := max_x + 10
        max_y := max_y + 10 }

/-- Model of `generate_tnut_grid(width, height, svg_root)`: when `get_hold_range`
yields tagged bounds, spacing is the bound span divided by the interval
counts (7 and 39) with the observed minimum as origin; otherwise image
dimensions divided by the cell counts with a half-spacing origin.
Returns the 8 x 40 t-nut lattice and the grid parameter record. -/
def generate_tnut_grid (width height : ℚ) (hold_range : Option (ℚ × ℚ × ℚ × ℚ)) :
    List Pt × GridParams :=
  let core : ℚ × ℚ × ℚ × ℚ :=
    match hold_range with
    | some (min_x, max_x, min_y, max_y) =>
      ((max_x - min_x) / 7, (max_y - min_y) / 39, min_x, min_y)
    | none =>
      (width / 8, height / 40, width / 8 / 2, height / 40 / 2)
  let gsx := core.1
  let gsy := core.2.1
  let ox := core.2.2.1
  let oy := core.2.2.2
  let tnuts := (List.range 40).flatMap fun y =>
    (List.range 8).map fun x => (⟨ox + x * gsx, oy + y * gsy⟩ : Pt)
  (tnuts,
    { spacing_x := gsx
      spacing_y := gsy
      origin_x := ox
      origin_y := oy
      max_x := ox + gsx * 8
      max_y := oy + gsy * 40 })

/-! ## Keystone transform (`keystone_projection.py`, `apply_keystone`) -/

/-- The projection-area geometry and keystone factor of a
`ProjectionDisplay` (`proj_x`, `proj_y`, `proj_width`, `proj_height`,
`keystone`). -/
structure KeystoneCfg where
  proj_x : ℚ
  proj_y : ℚ
  proj_width : ℚ
  proj_height : ℚ
  keystone : ℚ
deriving DecidableEq

/-- Source: `rel_x = (x - self.proj_x) / self.proj_width`. -/
def rel_x (cfg : KeystoneCfg) (x : ℚ) : ℚ :=
  (x - cfg.proj_x) / cfg.proj_width

/-- Source: `rel_y = (y - self.proj_y) / self.proj_height`. -/
def rel_y (cfg : KeystoneCfg) (y : ℚ) : ℚ :=
  (y - cfg.proj_y) / cfg.proj_height

/-- Source: `scale_factor = 1.0 - (self.keystone * (2 * rel_y - 1))`. -/
def scale_factor (cfg : KeystoneCfg) (y : ℚ) : ℚ :=
  1 - cfg.keystone * (2 * rel_y cfg y - 1)

/-- Source: `scaled_x = proj_x + proj_width*0.5 + (rel_x - 0.5)*proj_width*scale_factor`,
before the final `int()` cast. -/
def keystoneScaledX (cfg : KeystoneCfg) (x y : ℚ) : ℚ :=
  cfg.proj_x + cfg.proj_width * (1 / 2) +
    (rel_x cfg x - 1 / 2) * cfg.proj_width * scale_factor cfg y

/-- Model of `apply_keystone(x, y)`: returns `(int(scaled_x), y, scale_factor)`. -/
def apply_keystone (cfg : KeystoneCfg) (x y : ℚ) : ℤ × ℚ × ℚ :=
  (pyTrunc (keystoneScaledX cfg x y), y, scale_factor cfg y)

/-! ## Render visibility window (`keystone_projection.py`, `render`) -/

/-- One entry of `route['holds']` as consumed by `render`. -/
structure RHold where
  segment : ℤ
  type : String
  x : ℚ
  y : ℚ
deriving DecidableEq

/-- The projection-area rectangle used by `render`. -/
structure RenderCfg where
  proj_x : ℚ
  proj_y : ℚ
  proj_width : ℚ
  proj_height : ℚ
deriving DecidableEq

/-- The per-hold emission test inside `ProjectionDisplay.render`: the
hold's segment must equal `int(wall_position / 40)`, its row must fall
in `[visible_start, visible_start + 20)` where
`visible_start = 20 - (wall_position % 40) / 40 * 20`, and the mapped
`screen_y` must lie inside the projection area. -/
def holdVisible (cfg : RenderCfg) (wall_position : ℚ) (h : RHold) : Bool :=
  let base_segment : ℤ := pyTrunc (wall_position / 40)
  let segment_progress : ℚ := pyMod wall_position 40 / 40
  let row_offset : ℚ := 20
  let row_spacing : ℚ := cfg.proj_height / 20
  let visible_start : ℚ := row_offset - segment_progress * 20
  let visible_end : ℚ := visible_start + 20
  let relative_y : ℚ := h.y - visible_start
  let screen_y : ℚ := cfg.proj_y + relative_y * row_spacing
  h.segment == base_segment &&
    (decide (visible_start ≤ h.y) && decide (h.y < visible_end)) &&
    (decide (cfg.proj_y ≤ screen_y) && decide (screen_y ≤ cfg.proj_y + cfg.proj_height))

/-- The holds of the active route that `render` draws for the given
wall scroll position (in route order). -/
def visibleHolds (cfg : RenderCfg) (wall_position : ℚ) (holds : List RHold) : List RHold :=
  holds.filter (holdVisible cfg wall_position)

/-- The projection area computed by `update_projection_area` for the
default 600 x 1000 window: `proj_height = 960` is cut to the 3:5 aspect,
`proj_width = 576` overflows `600 - 40`, so `proj_width = 560`,
`proj_height = int(560 * 5 / 3) = 933`, centered at `(20, 33)`. -/
def defaultRenderCfg : RenderCfg :=
  { proj_x := 20, proj_y := 33, proj_width := 560, proj_height := 933 }

/-! ## Route validation (`route_manager.py`, `validate_route`) -/

/-- JSON-ish scalar values appearing in a hold record: Python `int`,
`float`, or `str` (enough to express the `isinstance` checks). -/
inductive JVal where
  | jint (n : ℤ)
  | jfloat (q : ℚ)
  | jstr (s : String)
deriving DecidableEq

/-- One entry of `route_data['holds']`: each key may be absent. -/
structure HoldJson where
  x : Option JVal
  y : Option JVal
  type : Option JVal
deriving DecidableEq

/-- Model of `route_data`: whether `'name'` is present, and the `'holds'` value
when present. -/
structure RouteJson where
  hasName : Bool
  holds : Option (List HoldJson)
deriving DecidableEq

/-- Source: `any(hold['type'] == s for hold in holds)`: short-circuiting scan
that raises `KeyError` on a hold without a `'type'` key reached before
any match. -/
def anyType (s : String) : List HoldJson → Except String Bool
  | [] => .ok false
  | h :: t =>
    match h.type with
    | none => .error "KeyError: type"
    | some v => if v = .jstr s then .ok true else anyType s t

/-- Source: `isinstance(x, int) and 0 <= x <= 7`. -/
def xValid : Option JVal → Bool
  | some (.jint n) => decide (0 ≤ n ∧ n ≤ 7)
  | _ => false

/-- Source: `isinstance(y, (int, float)) and y >= 0`. -/
def yValid : Option JVal → Bool
  | some (.jint n) => decide (0 ≤ n)
  | some (.jfloat q) => decide (0 ≤ q)
  | _ => false

/-- Source check that the type is one of start, foot, regular, finish. -/
def typeValid (v : Option JVal) : Bool :=
  v = some (.jstr "start") ∨ v = some (.jstr "foot") ∨
    v = some (.jstr "regular") ∨ v = some (.jstr "finish")

/-- The per-hold validation body of `validate_route` (the Python
error message for an invalid type interpolates the set of valid types;
the literal here fixes one rendering of it). -/
def checkHold (h : HoldJson) : Except String Unit :=
  if h.x.isNone || h.y.isNone || h.type.isNone then
    .error "Each hold must have x, y, and type properties"
  else if !xValid h.x then
    .error "Hold x position must be an integer between 0 and 7"
  else if !yValid h.y then
    .error "Hold y position must be a positive number"
  else if !typeValid h.type then
    .error "Invalid hold type. Must be one of: start, foot, regular, finish"
  else .ok ()

/-- The `for hold in holds:` validation loop. -/
def checkHolds : List HoldJson → Except String Unit
  | [] => .ok ()
  | h :: t =>
    match checkHold h with
    | .ok _ => checkHolds t
    | .error e => .error e

/-- Model of `validate_route(route_data)` (`src/utils/route_manager.py`), with
`raise ValueError(msg)` modelled as `Except.error msg`. -/
def validate_route (r : RouteJson) : Except String Unit :=
  if !(r.hasName && r.holds.isSome) then
    .error "Missing required fields: name and holds"
  else
    let holds := r.holds.getD []
    if holds.isEmpty then
      .error "Route must have at least one hold"
    else
      match anyType "start" holds with
      | .error e => .error e
      | .ok has_start =>
        match anyType "finish" holds with
        | .error e => .error e
        | .ok has_finish =>
          if !has_start then .error "Route must have at least one start hold"
          else if !has_finish then .error "Route must have at least one finish hold"
          else checkHolds holds

/-! ## Lemmas about the snapper's collision pass -/

theorem acell_assignHold (v : SvgView) (h : HoldRec) : acell (assignHold v h) = cellOf h :=
  rfl

theorem polygon_assignHold (v : SvgView) (h : HoldRec) : (assignHold v h).polygon = h.polygon :=
  rfl

theorem polygon_mkHold (v : SvgView) (gp : GridParams) (tnuts : List Pt) (p : Polygon) :
    (mkHold v gp tnuts p).polygon = p :=
  rfl

/-- Every cell recorded in the output of the collision pass was
unoccupied when the pass started. -/
theorem secondPass_not_mem_occ (v : SvgView) :
    ∀ (S : List HoldRec) (occ : List (ℤ × ℤ)), ∀ a ∈ secondPass v occ S, acell a ∉ occ := by
  intro S
  induction S with
  | nil =>
    intro occ a ha
    simp [secondPass] at ha
  | cons h t ih =>
    intro occ a ha
    by_cases hc : cellOf h ∈ occ
    · rw [secondPass, if_pos hc] at ha
      exact ih occ a ha
    · rw [secondPass, if_neg hc] at ha
      rcases List.mem_cons.mp ha with rfl | ha'
      · simpa [acell_assignHold] using hc
      · intro hmem
        exact ih (cellOf h :: occ) a ha' (List.mem_cons_of_mem _ hmem)

/-- The collision pass never emits two holds with the same cell. -/
theorem secondPass_pairwise_cells (v : SvgView) :
    ∀ (S : List HoldRec) (occ : List (ℤ × ℤ)),
      (secondPass v occ S).Pairwise (fun a b => acell a ≠ acell b) := by
  intro S
  induction S with
  | nil =>
    intro occ
    simp [secondPass]
  | cons h t ih =>
    intro occ
    by_cases hc : cellOf h ∈ occ
    · rw [secondPass, if_pos hc]
      exact ih occ
    · rw [secondPass, if_neg hc]
      refine List.Pairwise.cons ?_ (ih _)
      intro b hb heq
      have hnot := secondPass_not_mem_occ v t (cellOf h :: occ) b hb
      rw [acell_assignHold] at heq
      exact hnot (heq ▸ List.mem_cons_self _ _)

/-- C1: for every run of the Grid Snapper — any SVG view, any grid
parameters, any t-nut set, any collection of shaped holds — the retained
(grid-assigned) holds have pairwise distinct grid cells: no two output
holds carry the same `(grid_x, grid_y)` address. -/
theorem snapper_output_cells_distinct (v : SvgView) (gp : Option GridParams) (tnuts : List Pt)
    (polys : List Polygon) :
    (transform_svg_to_grid v gp tnuts polys).Pairwise (fun a b => acell a ≠ acell b) := by
  cases gp with
  | none => simp [transform_svg_to_grid]
  | some gp => exact secondPass_pairwise_cells v _ []

theorem mem_insertByDist {x h : HoldRec} : ∀ {l : List HoldRec},
    x ∈ insertByDist h l ↔ x = h ∨ x ∈ l := by
  intro l
  induction l with
  | nil => simp [insertByDist]
  | cons h2 t ih =>
    by_cases hle : h.distance2 ≤ h2.distance2
    · simp [insertByDist, hle]
    · simp [insertByDist, hle, ih]
      tauto

theorem mem_sortByDist {x : HoldRec} : ∀ {l : List HoldRec}, x ∈ sortByDist l ↔ x ∈ l := by
  intro l
  induction l with
  | nil => simp [sortByDist]
  | cons h t ih =>
    simp [sortByDist, mem_insertByDist, ih]

theorem insertByDist_sorted {h : HoldRec} : ∀ {l : List HoldRec},
    l.Pairwise (fun a b => a.distance2 ≤ b.distance2) →
    (insertByDist h l).Pairwise (fun a b => a.distance2 ≤ b.distance2) := by
  intro l
  induction l with
  | nil =>
    intro _
    simp [insertByDist]
  | cons h2 t ih =>
    intro hl
    rcases List.pairwise_cons.mp hl with ⟨hhead, htail⟩
    by_cases hle : h.distance2 ≤ h2.distance2
    · rw [insertByDist, if_pos hle]
      refine List.Pairwise.cons ?_ hl
      intro b hb
      rcases List.mem_cons.mp hb with rfl | hb'
      · exact hle
      · exact le_trans hle (hhead b hb')
    · rw [insertByDist, if_neg hle]
      refine List.Pairwise.cons ?_ (ih htail)
      intro b hb
      rcases mem_insertByDist.mp hb with rfl | hb'
      · exact le_of_not_le hle
      · exact hhead b hb'

theorem sortByDist_sorted : ∀ (l : List HoldRec),
    (sortByDist l).Pairwise (fun a b => a.distance2 ≤ b.distance2) := by
  intro l
  induction l with
  | nil => simp [sortByDist]
  | cons h t ih => exact insertByDist_sorted ih

/-- Every output record of the collision pass is the rewrite of some
input candidate. -/
theorem secondPass_sources (v : SvgView) :
    ∀ (S : List HoldRec) (occ : List (ℤ × ℤ)), ∀ a ∈ secondPass v occ S,
      ∃ h ∈ S, a = assignHold v h := by
  intro S
  induction S with
  | nil =>
    intro occ a ha
    simp [secondPass] at ha
  | cons h t ih =>
    intro occ a ha
    by_cases hc : cellOf h ∈ occ
    · rw [secondPass, if_pos hc] at ha
      obtain ⟨h', hm, he⟩ := ih occ a ha
      exact ⟨h', List.mem_cons_of_mem _ hm, he⟩
    · rw [secondPass, if_neg hc] at ha
      rcases List.mem_cons.mp ha with rfl | ha'
      · exact ⟨h, List.mem_cons_self _ _, rfl⟩
      · obtain ⟨h', hm, he⟩ := ih (cellOf h :: occ) a ha'
        exact ⟨h', List.mem_cons_of_mem _ hm, he⟩

/-- Core collision-resolution property: over a distance-sorted candidate
list in which `h0` is the strictly closest candidate targeting cell `c`,
and with `c` initially unoccupied, the pass retains `h0`, and any output
record on cell `c` is exactly `h0`'s rewrite. -/
theorem secondPass_min_claims (v : SvgView) (c : ℤ × ℤ) (h0 : HoldRec) :
    ∀ (S : List HoldRec) (occ : List (ℤ × ℤ)),
      S.Pairwise (fun a b => a.distance2 ≤ b.distance2) →
      (∀ h ∈ S, cellOf h = c → h ≠ h0 → h0.distance2 < h.distance2) →
      c ∉ occ → h0 ∈ S → cellOf h0 = c →
      assignHold v h0 ∈ secondPass v occ S ∧
        ∀ a ∈ secondPass v occ S, acell a = c → a = assignHold v h0 := by
  intro S
  induction S with
  | nil =>
    intro occ _ _ _ hmem _
    cases hmem
  | cons h t ih =>
    intro occ hsort hmin hocc hmem hcell
    by_cases heq : h = h0
    · subst heq
      have hnotocc : cellOf h ∉ occ := by
        rw [hcell]
        exact hocc
      rw [secondPass, if_neg hnotocc]
      constructor
      · exact List.mem_cons_self _ _
      · intro a ha hac
        rcases List.mem_cons.mp ha with rfl | ha'
        · rfl
        · exfalso
          have hnot := secondPass_not_mem_occ v t (cellOf h :: occ) a ha'
          rw [hac, ← hcell] at hnot
          exact hnot (List.mem_cons_self _ _)
    · have hmemt : h0 ∈ t := by
        rcases List.mem_cons.mp hmem with h' | h'
        · exact absurd h'.symm heq
        · exact h'
      have hnc : cellOf h ≠ c := by
        intro hch
        have hlt := hmin h (List.mem_cons_self _ _) hch heq
        have hle := (List.pairwise_cons.mp hsort).1 h0 hmemt
        exact absurd (lt_of_lt_of_le hlt hle) (lt_irrefl _)
      have hsort' := (List.pairwise_cons.mp hsort).2
      have hmin' : ∀ h' ∈ t, cellOf h' = c → h' ≠ h0 → h0.distance2 < h'.distance2 :=
        fun h' hm => hmin h' (List.mem_cons_of_mem _ hm)
      by_cases hc : cellOf h ∈ occ
      · rw [secondPass, if_pos hc]
        exact ih occ hsort' hmin' hocc hmemt hcell
      · rw [secondPass, if_neg hc]
        have hocc' : c ∉ cellOf h :: occ := by
          intro hm
          rcases List.mem_cons.mp hm with h' | h'
          · exact hnc h'.symm
          · exact hocc h'
        obtain ⟨hret, huniq⟩ := ih (cellOf h :: occ) hsort' hmin' hocc' hmemt hcell
        constructor
        · exact List.mem_cons_of_mem _ hret
        · intro a ha hac
          rcases List.mem_cons.mp ha with rfl | ha'
          · exact absurd (acell_assignHold v h ▸ hac) hnc
          · exact huniq a ha' hac

/-- Two candidate records built over the same polygon list are equal as
soon as their polygons agree (`mkHold` is a function of the polygon). -/
theorem mkHold_eq_of_polygon_eq (v : SvgView) (gp : GridParams) (tnuts : List Pt)
    {polys : List Polygon} {h h' : HoldRec}
    (hm : h ∈ polys.map (mkHold v gp tnuts)) (hm' : h' ∈ polys.map (mkHold v gp tnuts))
    (hp : h.polygon = h'.polygon) : h = h' := by
  obtain ⟨p, _, rfl⟩ := List.mem_map.mp hm
  obtain ⟨p', _, rfl⟩ := List.mem_map.mp hm'
  rw [polygon_mkHold, polygon_mkHold] at hp
  rw [hp]

/-- C2: among all candidate holds targeting one grid cell, the snapper
retains exactly the one strictly closest to its bolt — its polygon
appears in the output on that cell — and every other competitor is
dropped: no output record carries a losing competitor's polygon. -/
theorem snapper_retains_closest (v : SvgView) (gp : GridParams) (tnuts : List Pt)
    (polys : List Polygon) (c : ℤ × ℤ) (h0 : HoldRec)
    (hmem : h0 ∈ polys.map (mkHold v gp tnuts)) (hcell : cellOf h0 = c)
    (hmin : ∀ h ∈ polys.map (mkHold v gp tnuts), cellOf h = c → h ≠ h0 →
      h0.distance2 < h.distance2) :
    (∃ a ∈ transform_svg_to_grid v (some gp) tnuts polys,
        a.polygon = h0.polygon ∧ acell a = c) ∧
      ∀ h ∈ polys.map (mkHold v gp tnuts), cellOf h = c → h ≠ h0 →
        ∀ a ∈ transform_svg_to_grid v (some gp) tnuts polys, a.polygon ≠ h.polygon := by
  have hout : transform_svg_to_grid v (some gp) tnuts polys =
      secondPass v [] (sortByDist (polys.map (mkHold v gp tnuts))) := rfl
  have hsort := sortByDist_sorted (polys.map (mkHold v gp tnuts))
  have hminS : ∀ h ∈ sortByDist (polys.map (mkHold v gp tnuts)), cellOf h = c → h ≠ h0 →
      h0.distance2 < h.distance2 :=
    fun h hm => hmin h (mem_sortByDist.mp hm)
  have hmemS : h0 ∈ sortByDist (polys.map (mkHold v gp tnuts)) := mem_sortByDist.mpr hmem
  obtain ⟨hret, huniq⟩ :=
    secondPass_min_claims v c h0 _ [] hsort hminS (List.not_mem_nil c) hmemS hcell
  constructor
  · exact ⟨assignHold v h0, hout ▸ hret, polygon_assignHold v h0, acell_assignHold v h0 ▸ hcell⟩
  · intro h hm hch hne a ha hpoly
    obtain ⟨h', hm', rfl⟩ := secondPass_sources v _ [] a (hout ▸ ha)
    have hh' : h' = h := by
      refine mkHold_eq_of_polygon_eq v gp tnuts (mem_sortByDist.mp hm') hm ?_
      rw [← polygon_assignHold v h']
      exact hpoly
    subst hh'
    have hcc : acell (assignHold v h') = c := by
      rw [acell_assignHold, hch]
    have := huniq (assignHold v h') (hout ▸ ha) hcc
    have hpp : h'.polygon = h0.polygon := by
      have := congrArg AssignedHold.polygon this
      rwa [polygon_assignHold, polygon_assignHold] at this
    exact hne (mkHold_eq_of_polygon_eq v gp tnuts hm hmem hpp)

/-- SVG view used by the closest-wins witness: viewBox `0 0 100 100`
with matching width/height (scale 1). -/
def viewW : SvgView :=
  ⟨0, 0, 100, 100, 100, 100⟩

/-- Grid used by the closest-wins witness: spacing 10, origin 0. -/
def gpW : GridParams :=
  ⟨10, 10, 0, 0, 80, 400⟩

/-- Competitor at Euclidean distance 3.0 from the bolt `(50, 50)`
(centroid `(47, 50)`). -/
def polyNear : Polygon :=
  ⟨1, [⟨46, 49⟩, ⟨46, 51⟩, ⟨49, 50⟩], none, none⟩

/-- Competitor at Euclidean distance 7.5 from the bolt `(50, 50)`
(centroid `(50, 42.5)`). -/
def polyFar : Polygon :=
  ⟨2, [⟨49, 83/2⟩, ⟨51, 83/2⟩, ⟨50, 89/2⟩], none, none⟩

unseal Rat.add Rat.mul Rat.sub Rat.inv in
theorem snapper_retains_closest_witness :
    ((mkHold viewW gpW [⟨50, 50⟩] polyNear ∈
        [polyNear, polyFar].map (mkHold viewW gpW [⟨50, 50⟩]) ∧
      cellOf (mkHold viewW gpW [⟨50, 50⟩] polyNear) = (5, 5) ∧
      (mkHold viewW gpW [⟨50, 50⟩] polyNear).distance2 = 3 ^ 2 ∧
      (mkHold viewW gpW [⟨50, 50⟩] polyFar).distance2 = (15 / 2) ^ 2 ∧
      cellOf (mkHold viewW gpW [⟨50, 50⟩] polyFar) = (5, 5) ∧
      (∀ h ∈ [polyNear, polyFar].map (mkHold viewW gpW [⟨50, 50⟩]), cellOf h = (5, 5) →
        h ≠ mkHold viewW gpW [⟨50, 50⟩] polyNear →
        (mkHold viewW gpW [⟨50, 50⟩] polyNear).distance2 < h.distance2)) ∧
      (∃ a ∈ transform_svg_to_grid viewW (some gpW) [⟨50, 50⟩] [polyNear, polyFar],
          a.polygon = polyNear ∧ acell a = (5, 5)) ∧
        ∀ a ∈ transform_svg_to_grid viewW (some gpW) [⟨50, 50⟩] [polyNear, polyFar],
          a.polygon ≠ polyFar) := by
  refine ⟨⟨by decide, by decide, by decide, by decide, by decide, by decide⟩, ?_, ?_⟩
  · exact (snapper_retains_closest viewW gpW [⟨50, 50⟩] [polyNear, polyFar] (5, 5)
      (mkHold viewW gpW [⟨50, 50⟩] polyNear) (by decide) (by decide) (by decide)).1
  · intro a ha
    exact (snapper_retains_closest viewW gpW [⟨50, 50⟩] [polyNear, polyFar] (5, 5)
      (mkHold viewW gpW [⟨50, 50⟩] polyNear) (by decide) (by decide) (by decide)).2
      (mkHold viewW gpW [⟨50, 50⟩] polyFar) (by decide) (by decide) (by decide) a ha

/-- Python's `round` to the nearest integer, exact halves going to the
even neighbor.  Stated from the spec's words (`column = round(...)`) for
comparison against the source's `int()` truncation; no half-tie arises
in the comparison below, so the tie convention is immaterial. -/
def pyRound (q : ℚ) : ℤ :=
  let f := qfloor q
  let r := q - (f : ℚ)
  if r < 1 / 2 then f
  else if 1 / 2 < r then f + 1
  else if f % 2 = 0 then f else f + 1

/-- Modelled from the spec: the candidate grid cell per the spec's
formula `(column = round((boltX − originX)/spacingX),
row = round((boltY − originY)/spacingY))`, clamped into
`[0,7] × [0,39]`. -/
def specRoundCell (gp : GridParams) (bolt : Pt) : ℤ × ℤ :=
  (clampI 0 7 (pyRound ((bolt.x - gp.origin_x) / gp.spacing_x)),
    clampI 0 39 (pyRound ((bolt.y - gp.origin_y) / gp.spacing_y)))

/-- Grid for the truncation-vs-round comparison: spacing 10, origin 0. -/
def gpC3 : GridParams :=
  ⟨10, 10, 0, 0, 70, 390⟩

/-- Identity view (viewBox `0 0 100 100`, width/height 100). -/
def viewC3 : SvgView :=
  ⟨0, 0, 100, 100, 100, 100⟩

/-- A hold whose centroid `(2, 1)` snaps to the bolt `(6, 0)`: the
quotient `6/10` rounds to 1 but truncates to 0. -/
def polyC3 : Polygon :=
  ⟨1, [⟨0, 0⟩, ⟨3, 0⟩, ⟨3, 3⟩], none, none⟩

unseal Rat.add Rat.mul Rat.sub Rat.inv in
/-- C3 counterexample: processing the hold above, the snapper records
cell `(0, 0)` (truncation of `6/10`), while the claimed formula
`round((boltX − originX)/spacingX)` yields column 1 — the claim is false
at this input. -/
theorem snapper_cell_not_round_counterexample :
    (transform_svg_to_grid viewC3 (some gpC3) [⟨6, 0⟩] [polyC3]).map acell = [(0, 0)] ∧
      specRoundCell gpC3 ⟨6, 0⟩ = (1, 0) ∧
      ((0 : ℤ), (0 : ℤ)) ≠ ((1 : ℤ), (0 : ℤ)) :=
  ⟨by decide, by decide, by decide⟩

/-- C3 (amended): for every hold processed by the Grid Snapper, its grid
cell is computed from its assigned bolt as
`column = int((boltX − originX)/spacingX)` (truncation toward zero, not
rounding) and `row = int((boltY − originY)/spacingY)`, the result
clamped into `[0,7] × [0,39]`. -/
theorem snapper_cell_formula (v : SvgView) (gp : GridParams) (tnuts : List Pt)
    (polys : List Polygon) :
    ∀ a ∈ transform_svg_to_grid v (some gp) tnuts polys,
      acell a = (clampI 0 7 (pyTrunc ((a.tnut.x - gp.origin_x) / gp.spacing_x)),
        clampI 0 39 (pyTrunc ((a.tnut.y - gp.origin_y) / gp.spacing_y))) := by
  intro a ha
  obtain ⟨h, hm, rfl⟩ := secondPass_sources v _ [] a ha
  obtain ⟨p, _, rfl⟩ := List.mem_map.mp (mem_sortByDist.mp hm)
  rfl

/-- The single output record of the counterexample run, used to witness
the amended cell formula. -/
def aC3 : AssignedHold :=
  ⟨polyC3, [⟨4, -1⟩, ⟨7, -1⟩, ⟨7, 2⟩], 0, 0, ⟨6, 0⟩, ⟨2, 1⟩⟩

unseal Rat.add Rat.mul Rat.sub Rat.inv in
theorem snapper_cell_formula_witness :
    aC3 ∈ transform_svg_to_grid viewC3 (some gpC3) [⟨6, 0⟩] [polyC3] ∧
      acell aC3 = (clampI 0 7 (pyTrunc ((aC3.tnut.x - gpC3.origin_x) / gpC3.spacing_x)),
        clampI 0 39 (pyTrunc ((aC3.tnut.y - gpC3.origin_y) / gpC3.spacing_y))) :=
  ⟨by decide, snapper_cell_formula viewC3 gpC3 [⟨6, 0⟩] [polyC3] aC3 (by decide)⟩

/-- Grid parameters with a non-positive x-spacing. -/
def gpC7 : GridParams :=
  ⟨-10, 10, 0, 0, 100, 100⟩

/-- Identity view for the non-positive-spacing run. -/
def viewC7 : SvgView :=
  ⟨0, 0, 100, 100, 100, 100⟩

/-- A hold with centroid `(2, 1)`. -/
def polyC7 : Polygon :=
  ⟨1, [⟨0, 0⟩, ⟨3, 0⟩, ⟨3, 3⟩], none, none⟩

unseal Rat.add Rat.mul Rat.sub Rat.inv in
/-- C7: `transform_svg_to_grid` has no spacing precondition — evaluated
at grid parameters with `spacing_x = -10 ≤ 0` it does NOT reject the
input: the hold is assigned a cell and its contour is translated (by
`(3, 4)` onto the bolt `(5, 5)`), contradicting the spec's required
`InvalidGridParameters` rejection before any processing. -/
theorem snapper_accepts_nonpositive_spacing :
    gpC7.spacing_x ≤ 0 ∧
      transform_svg_to_grid viewC7 (some gpC7) [⟨5, 5⟩] [polyC7] =
        [{ polygon := polyC7, newPoints := [⟨3, 4⟩, ⟨6, 4⟩, ⟨6, 7⟩], grid_x := 0, grid_y := 0,
            tnut := ⟨5, 5⟩, original_ref := ⟨2, 1⟩ }] :=
  ⟨by decide, by decide⟩

/-- Conversion from viewBox to actual coordinates (`(x - view_min_x) *
scale_x`, `(y - view_min_y) * scale_y`), the space in which the snapper
measures distances and translates contours. -/
def toActual (v : SvgView) (p : Pt) : Pt :=
  ⟨(p.x - v.view_min_x) * v.scale_x, (p.y - v.view_min_y) * v.scale_y⟩

theorem mkHold_original_points (v : SvgView) (gp : GridParams) (tnuts : List Pt) (p : Polygon) :
    (mkHold v gp tnuts p).original_points = p.points.map (toActual v) :=
  rfl

/-- In actual coordinates, the rewritten contour of a retained hold is
its original contour translated by the constant vector from the hold's
reference point to its bolt. -/
theorem assignHold_newPoints_actual (v : SvgView) (h : HoldRec)
    (hsx : v.scale_x ≠ 0) (hsy : v.scale_y ≠ 0) :
    (assignHold v h).newPoints.map (toActual v) =
      h.original_points.map fun p =>
        (⟨p.x + (h.nearest_tnut.x - h.tnut_x), p.y + (h.nearest_tnut.y - h.tnut_y)⟩ : Pt) := by
  simp only [assignHold, List.map_map]
  refine List.map_congr_left fun q _ => ?_
  simp only [Function.comp_apply, toActual, Pt.mk.injEq]
  constructor
  · field_simp
    ring
  · field_simp
    ring

/-- C4: every hold retained by the snapper has its contour translated by
the single constant vector from its reference point to the assigned bolt
(in actual coordinates): corresponding new/old contour points all differ
by exactly that vector, and all pairwise differences between contour
points — the shape — are unchanged. -/
theorem snapper_translates_contour (v : SvgView) (gp : GridParams) (tnuts : List Pt)
    (polys : List Polygon) (hsx : v.scale_x ≠ 0) (hsy : v.scale_y ≠ 0) :
    ∀ a ∈ transform_svg_to_grid v (some gp) tnuts polys,
      (a.newPoints.map (toActual v) =
        (a.polygon.points.map (toActual v)).map fun q =>
          (⟨q.x + (a.tnut.x - a.original_ref.x), q.y + (a.tnut.y - a.original_ref.y)⟩ : Pt)) ∧
      (∀ pq ∈ (a.newPoints.map (toActual v)).zip (a.polygon.points.map (toActual v)),
        pq.1.x - pq.2.x = a.tnut.x - a.original_ref.x ∧
          pq.1.y - pq.2.y = a.tnut.y - a.original_ref.y) ∧
      (∀ pq ∈ (a.newPoints.map (toActual v)).zip (a.polygon.points.map (toActual v)),
        ∀ rs ∈ (a.newPoints.map (toActual v)).zip (a.polygon.points.map (toActual v)),
          pq.1.x - rs.1.x = pq.2.x - rs.2.x ∧ pq.1.y - rs.1.y = pq.2.y - rs.2.y) := by
  intro a ha
  obtain ⟨h, hm, rfl⟩ := secondPass_sources v _ [] a ha
  obtain ⟨p, _, rfl⟩ := List.mem_map.mp (mem_sortByDist.mp hm)
  have hmap : (assignHold v (mkHold v gp tnuts p)).newPoints.map (toActual v) =
      ((assignHold v (mkHold v gp tnuts p)).polygon.points.map (toActual v)).map fun q =>
        (⟨q.x + ((assignHold v (mkHold v gp tnuts p)).tnut.x -
            (assignHold v (mkHold v gp tnuts p)).original_ref.x),
          q.y + ((assignHold v (mkHold v gp tnuts p)).tnut.y -
            (assignHold v (mkHold v gp tnuts p)).original_ref.y)⟩ : Pt) := by
    rw [assignHold_newPoints_actual v _ hsx hsy, mkHold_original_points]
    rfl
  have hkey : ∀ pq ∈ ((assignHold v (mkHold v gp tnuts p)).newPoints.map (toActual v)).zip
      (((assignHold v (mkHold v gp tnuts p)).polygon.points.map (toActual v))),
      pq.1.x - pq.2.x = (assignHold v (mkHold v gp tnuts p)).tnut.x -
          (assignHold v (mkHold v gp tnuts p)).original_ref.x ∧
        pq.1.y - pq.2.y = (assignHold v (mkHold v gp tnuts p)).tnut.y -
          (assignHold v (mkHold v gp tnuts p)).original_ref.y := by
    intro pq hpq
    rw [hmap, List.map_map, List.zip_map'] at hpq
    obtain ⟨q, _, rfl⟩ := List.mem_map.mp hpq
    constructor
    · simp only [Function.comp_apply]
      ring
    · simp only [Function.comp_apply]
      ring
  refine ⟨hmap, hkey, ?_⟩
  intro pq hpq rs hrs
  obtain ⟨h1x, h1y⟩ := hkey pq hpq
  obtain ⟨h2x, h2y⟩ := hkey rs hrs
  constructor
  · linarith
  · linarith

/-- View with a nontrivial scale: viewBox `0 0 50 50`, width/height 100
(scale factor 2 on both axes). -/
def viewC4 : SvgView :=
  ⟨0, 0, 50, 50, 100, 100⟩

/-- Grid for the translation witness: spacing 10, origin 0. -/
def gpC4 : GridParams :=
  ⟨10, 10, 0, 0, 80, 400⟩

/-- Hold with actual-coordinate centroid `(4, 2)`, snapping onto the
bolt `(10, 10)`. -/
def polyC4 : Polygon :=
  ⟨1, [⟨0, 0⟩, ⟨3, 0⟩, ⟨3, 3⟩], none, none⟩

/-- Output record of the translation witness run. -/
def aC4 : AssignedHold :=
  ⟨polyC4, [⟨3, 4⟩, ⟨6, 4⟩, ⟨6, 7⟩], 1, 1, ⟨10, 10⟩, ⟨4, 2⟩⟩

unseal Rat.add Rat.mul Rat.sub Rat.inv in
theorem snapper_translates_contour_witness :
    viewC4.scale_x ≠ 0 ∧ viewC4.scale_y ≠ 0 ∧
      aC4 ∈ transform_svg_to_grid viewC4 (some gpC4) [⟨10, 10⟩] [polyC4] ∧
      aC4.newPoints.map (toActual viewC4) =
        (aC4.polygon.points.map (toActual viewC4)).map fun q =>
          (⟨q.x + (aC4.tnut.x - aC4.original_ref.x),
            q.y + (aC4.tnut.y - aC4.original_ref.y)⟩ : Pt) :=
  ⟨by decide, by decide, by decide,
    (snapper_translates_contour viewC4 gpC4 [⟨10, 10⟩] [polyC4] (by decide) (by decide) aC4
      (by decide)).1⟩

unseal Rat.add Rat.mul Rat.sub Rat.inv in
/-- C5: the explicit-bounds branch of `generate_tnut_grid` yields
`spacing_x = (maxX - minX)/7`, `spacing_y = (maxY - minY)/39` and
origin `(minX, minY)` for all tagged bounds; in particular the bounds
`(0, 70, 0, 780)` give spacings 10 and 20. -/
theorem generate_tnut_grid_explicit_bounds (w h minX maxX minY maxY : ℚ) :
    ((generate_tnut_grid w h (some (minX, maxX, minY, maxY))).2.spacing_x = (maxX - minX) / 7 ∧
      (generate_tnut_grid w h (some (minX, maxX, minY, maxY))).2.spacing_y = (maxY - minY) / 39 ∧
      (generate_tnut_grid w h (some (minX, maxX, minY, maxY))).2.origin_x = minX ∧
      (generate_tnut_grid w h (some (minX, maxX, minY, maxY))).2.origin_y = minY) ∧
    ((generate_tnut_grid 0 0 (some (0, 70, 0, 780))).2.spacing_x = 10 ∧
      (generate_tnut_grid 0 0 (some (0, 70, 0, 780))).2.spacing_y = 20) :=
  ⟨⟨rfl, rfl, rfl, rfl⟩, by decide, by decide⟩

/-- C6: both grid estimators refuse collections of fewer than 4 points:
`calculate_grid_parameters` returns `None` for a missing sample and for
any sample shorter than 4, and `infer_grid_from_holds` likewise — no
grid parameters are produced. -/
theorem estimator_insufficient_data (l : List Pt) (hlen : l.length < 4) :
    calculate_grid_parameters none = none ∧
      calculate_grid_parameters (some l) = none ∧
      infer_grid_from_holds l = none := by
  refine ⟨rfl, ?_, ?_⟩
  · simp only [calculate_grid_parameters]
    rw [if_pos hlen]
  · simp only [infer_grid_from_holds]
    rw [if_pos hlen]

theorem estimator_insufficient_data_witness :
    ([(⟨0, 0⟩ : Pt), ⟨1, 1⟩, ⟨2, 2⟩].length < 4) ∧
      calculate_grid_parameters none = none ∧
      calculate_grid_parameters (some [⟨0, 0⟩, ⟨1, 1⟩, ⟨2, 2⟩]) = none ∧
      infer_grid_from_holds [⟨0, 0⟩, ⟨1, 1⟩, ⟨2, 2⟩] = none :=
  ⟨by decide, (estimator_insufficient_data [⟨0, 0⟩, ⟨1, 1⟩, ⟨2, 2⟩] (by decide)).1,
    (estimator_insufficient_data [⟨0, 0⟩, ⟨1, 1⟩, ⟨2, 2⟩] (by decide)).2.1,
    (estimator_insufficient_data [⟨0, 0⟩, ⟨1, 1⟩, ⟨2, 2⟩] (by decide)).2.2⟩

theorem pyTrunc_intCast (n : ℤ) : pyTrunc (n : ℚ) = n := by
  simp [pyTrunc, Rat.num_intCast, Rat.den_intCast]

/-- C8: `apply_keystone` scales a point's horizontal offset from the
projection rectangle's horizontal center by exactly
`1 + keystone * (1 - 2 * rel_y)` (the source's
`1 - keystone * (2*rel_y - 1)` is the same quantity), leaves `y`
unchanged, and at `keystone = 0` the scale factor is exactly 1 and every
integer-coordinate point is returned unchanged. -/
theorem apply_keystone_spec (cfg : KeystoneCfg) (x y : ℚ) (hw : cfg.proj_width ≠ 0) :
    scale_factor cfg y = 1 + cfg.keystone * (1 - 2 * rel_y cfg y) ∧
      keystoneScaledX cfg x y - (cfg.proj_x + cfg.proj_width / 2) =
        scale_factor cfg y * (x - (cfg.proj_x + cfg.proj_width / 2)) ∧
      (apply_keystone cfg x y).2.1 = y ∧
      (cfg.keystone = 0 → scale_factor cfg y = 1 ∧ keystoneScaledX cfg x y = x ∧
        ∀ n : ℤ, x = (n : ℚ) → apply_keystone cfg x y = (n, y, 1)) := by
  have hscale1 : ∀ hk : cfg.keystone = 0, scale_factor cfg y = 1 := by
    intro hk
    simp [scale_factor, hk]
  have hx : keystoneScaledX cfg x y - (cfg.proj_x + cfg.proj_width / 2) =
      scale_factor cfg y * (x - (cfg.proj_x + cfg.proj_width / 2)) := by
    simp only [keystoneScaledX, rel_x]
    field_simp
    ring
  refine ⟨by simp only [scale_factor]; ring, hx, rfl, ?_⟩
  intro hk
  have hsx : keystoneScaledX cfg x y = x := by
    have := hx
    rw [hscale1 hk, one_mul] at this
    linarith
  refine ⟨hscale1 hk, hsx, ?_⟩
  intro n hn
  subst hn
  simp only [apply_keystone, hsx, pyTrunc_intCast, hscale1 hk]

/-- Projection area of the default 600 x 1000 window with keystone
factor 1/2, used to witness the keystone identities. -/
def cfgC8 : KeystoneCfg :=
  ⟨20, 33, 560, 933, 1 / 2⟩

unseal Rat.add Rat.mul Rat.sub Rat.inv in
theorem apply_keystone_spec_witness :
    cfgC8.proj_width ≠ 0 ∧
      (scale_factor cfgC8 200 = 1 + cfgC8.keystone * (1 - 2 * rel_y cfgC8 200) ∧
        keystoneScaledX cfgC8 100 200 - (cfgC8.proj_x + cfgC8.proj_width / 2) =
          scale_factor cfgC8 200 * (100 - (cfgC8.proj_x + cfgC8.proj_width / 2)) ∧
        (apply_keystone cfgC8 100 200).2.1 = 200 ∧
        (cfgC8.keystone = 0 → scale_factor cfgC8 200 = 1 ∧
          keystoneScaledX cfgC8 100 200 = 100 ∧
          ∀ n : ℤ, (100 : ℚ) = (n : ℚ) → apply_keystone cfgC8 100 200 = (n, 200, 1))) :=
  ⟨by decide, apply_keystone_spec cfgC8 100 200 (by decide)⟩

unseal Rat.add Rat.mul Rat.sub Rat.inv in
/-- C9: under the default projection area and a 20-row window, the route
hold at row 25 of segment 0 is emitted at wall scroll position 0 (window
covering rows 20-39) and excluded at wall scroll position 30 (window
covering rows 5-25, exclusive at 25). -/
theorem render_visibility_window :
    visibleHolds defaultRenderCfg 0 [⟨0, "regular", 5, 25⟩] = [⟨0, "regular", 5, 25⟩] ∧
      visibleHolds defaultRenderCfg 30 [⟨0, "regular", 5, 25⟩] = [] :=
  ⟨by decide, by decide⟩

theorem anyType_ok_true {s : String} : ∀ {hs : List HoldJson},
    (∀ h ∈ hs, h.type ≠ none) → (∃ h ∈ hs, h.type = some (.jstr s)) →
    anyType s hs = .ok true := by
  intro hs
  induction hs with
  | nil =>
    rintro _ ⟨h, hm, _⟩
    cases hm
  | cons h t ih =>
    rintro hall ⟨h', hm', ht'⟩
    cases hh : h.type with
    | none => exact absurd hh (hall h (List.mem_cons_self _ _))
    | some v =>
      by_cases hv : v = .jstr s
      · subst hv
        simp [anyType, hh]
      · have hm'' : h' ∈ t := by
          rcases List.mem_cons.mp hm' with rfl | hmt
          · rw [hh] at ht'
            exact absurd (Option.some_injective _ ht') hv
          · exact hmt
        have hrec := ih (fun a ha => hall a (List.mem_cons_of_mem _ ha)) ⟨h', hm'', ht'⟩
        simpa [anyType, hh, hv] using hrec

theorem anyType_ok_false {s : String} : ∀ {hs : List HoldJson},
    (∀ h ∈ hs, h.type ≠ none) → (∀ h ∈ hs, h.type ≠ some (.jstr s)) →
    anyType s hs = .ok false := by
  intro hs
  induction hs with
  | nil =>
    intro _ _
    rfl
  | cons h t ih =>
    intro hall hnone
    cases hh : h.type with
    | none => exact absurd hh (hall h (List.mem_cons_self _ _))
    | some v =>
      have hv : v ≠ .jstr s := by
        intro he
        exact hnone h (List.mem_cons_self _ _) (by rw [hh, he])
      have hrec := ih (fun a ha => hall a (List.mem_cons_of_mem _ ha))
        (fun a ha => hnone a (List.mem_cons_of_mem _ ha))
      simpa [anyType, hh, hv] using hrec

/-- The hold `{x: 0, y: 0, type: 'start'}`. -/
def holdStart : HoldJson :=
  ⟨some (.jint 0), some (.jint 0), some (.jstr "start")⟩

/-- The hold `{x: 5, y: 39, type: 'finish'}`. -/
def holdFinish : HoldJson :=
  ⟨some (.jint 5), some (.jint 39), some (.jstr "finish")⟩

/-- A named route whose single hold is a start hold (no finish). -/
def routeNoFinish : RouteJson :=
  ⟨true, some [holdStart]⟩

/-- The same route with `{x: 5, y: 39, type: 'finish'}` added. -/
def routeWithFinish : RouteJson :=
  ⟨true, some [holdStart, holdFinish]⟩

/-- C10: `validate_route` rejects every route carrying a start hold but
no finish hold with the error naming the missing finish-hold
requirement; concretely, the one-start-hold route fails with exactly
that error, and adding `{x: 5, y: 39, type: 'finish'}` makes validation
succeed. -/
theorem validate_route_requires_finish :
    (∀ (r : RouteJson) (hs : List HoldJson), r.hasName = true → r.holds = some hs →
      hs ≠ [] → (∀ h ∈ hs, h.type ≠ none) →
      (∃ h ∈ hs, h.type = some (.jstr "start")) →
      (∀ h ∈ hs, h.type ≠ some (.jstr "finish")) →
      validate_route r = .error "Route must have at least one finish hold") ∧
      validate_route routeNoFinish = .error "Route must have at least one finish hold" ∧
      validate_route routeWithFinish = .ok () := by
  refine ⟨?_, by rfl, by rfl⟩
  intro r hs hname hholds hne hall hstart hfin
  have h1 := anyType_ok_true hall hstart
  have h2 := anyType_ok_false hall hfin
  have hempty : hs.isEmpty = false := by
    cases hs with
    | nil => exact absurd rfl hne
    | cons a t => rfl
  simp [validate_route, hname, hholds, hempty, h1, h2]

theorem validate_route_requires_finish_witness :
    (routeNoFinish.hasName = true ∧ routeNoFinish.holds = some [holdStart] ∧
      [holdStart] ≠ ([] : List HoldJson) ∧ (∀ h ∈ [holdStart], h.type ≠ none) ∧
      (∃ h ∈ [holdStart], h.type = some (.jstr "start")) ∧
      (∀ h ∈ [holdStart], h.type ≠ some (.jstr "finish"))) ∧
      validate_route routeNoFinish = .error "Route must have at least one finish hold" :=
  ⟨⟨rfl, rfl, by decide, by decide, by decide, by decide⟩,
    validate_route_requires_finish.1 routeNoFinish [holdStart] rfl rfl (by decide) (by decide)
      (by decide) (by decide)⟩
